import Mathlib

/-!
# Verification of the request lifecycle and provider-routing layer

Shallow embedding of the AI coding-assistant repository (VS Code extension +
FastAPI backend).  Strings are modelled as `List Char`; the JavaScript string
operations used by the source (`trim`, `substring`, `split(/\s+/)`,
`startsWith`, regex replacement with `""`) are modelled as explicit scans over
character lists.  Each definition carries a reference to the source location
it embeds.
-/

set_option autoImplicit false

namespace AiHackathon

/-- Strings of the embedded program. -/
abbrev Str := List Char

/-- The backtick character (code point 96), written via `Char.ofNat`. -/
def btick : Char := Char.ofNat 96

/-- JavaScript whitespace as used by `String.prototype.trim` and `\s`
(the characters that actually occur in source files). -/
def isWhite (c : Char) : Bool :=
  c = ' ' || c = '\t' || c = '\n' || c = '\r' || c = '\x0b' || c = '\x0c'

/-- JS `text.trim()`: remove leading and trailing whitespace. -/
def trim (l : Str) : Str :=
  ((l.dropWhile isWhite).reverse.dropWhile isWhite).reverse

/-- JS `\w` character class: `[A-Za-z0-9_]`. -/
def isWordChar (c : Char) : Bool :=
  ('a' ≤ c && c ≤ 'z') || ('A' ≤ c && c ≤ 'Z') || ('0' ≤ c && c ≤ '9') || c = '_'

/-- Three backticks, the fence marker of the regexes in `cleanMarkdown`. -/
def fence : Str := [btick, btick, btick]

/-!
## `CodeLlamaCompletionProvider.cleanMarkdown` (completionProvider.ts, 694-704)

```
text = text.replace(/^ ``` [\w]*\n?/gm, "");
text = text.replace(/\n? ``` $/gm, "");
text = text.replace(/ ` /g, "");
return text.trim();
```
The two fence regexes are modelled as left-to-right scans (the semantics of a
global `replace` with the `m` flag): `fenceOpenScan` tracks whether the current
position is a line start (`^`), `fenceCloseScan` checks end-of-line (`$`)
after a fence.  Both use their input length as fuel; every step consumes at
least one character, so the fuel never runs out.
-/

/-- Whether the scan position is at a line end (`$` with the `m` flag):
end of input or just before a newline. -/
def atLineEnd (l : Str) : Bool :=
  match l with
  | [] => true
  | c :: _ => c = '\n'

/-- One pass of `replace(/^ ``` [\w]*\n?/gm, "")`: at a line start, three
backticks followed by a run of word characters and an optional newline are
deleted; scanning resumes after the match. -/
def fenceOpenScan : Nat → Bool → Str → Str
  | 0, _, l => l
  | fuel + 1, atStart, l =>
    match l with
    | [] => []
    | c :: t =>
      if atStart = true ∧ l.take 3 = fence then
        let r1 := (l.drop 3).dropWhile isWordChar
        match r1 with
        | '\n' :: t1 => fenceOpenScan fuel true t1
        | _ => fenceOpenScan fuel false r1
      else
        c :: fenceOpenScan fuel (c == '\n') t

/-- One pass of `replace(/\n? ``` $/gm, "")`: an optional newline, three
backticks, and a line end; the greedy `\n?` is tried first, and a failed
attempt resumes one character further, exactly as the regex engine does. -/
def fenceCloseScan : Nat → Str → Str
  | 0, l => l
  | fuel + 1, l =>
    match l with
    | [] => []
    | c :: t =>
      if c = '\n' ∧ t.take 3 = fence ∧ atLineEnd (t.drop 3) = true then
        fenceCloseScan fuel (t.drop 3)
      else if c = btick ∧ t.take 2 = [btick, btick] ∧ atLineEnd (t.drop 2) = true then
        fenceCloseScan fuel (t.drop 2)
      else
        c :: fenceCloseScan fuel t

/-- JS `text.replace(/ ` /g, "")`: delete every backtick. -/
def removeBackticks (l : Str) : Str := l.filter (fun c => c != btick)

/-- Model of `CodeLlamaCompletionProvider.cleanMarkdown`
(completionProvider.ts, 694-704). -/
def cleanMarkdown (text : Str) : Str :=
  let t1 := fenceOpenScan text.length true text
  let t2 := fenceCloseScan t1.length t1
  trim (removeBackticks t2)

/-!
## Duplicate-prefix stripping (`fetchCompletion`, completionProvider.ts, 620-666)
-/

/-- JS `s.split(/\s+/)`: split at maximal whitespace runs; an empty string
yields `[""]`, and a leading/trailing separator yields an empty piece. -/
def wsSplitScan : Nat → Str → List Str
  | 0, l => [l.takeWhile (fun c => !isWhite c)]
  | fuel + 1, l =>
    let tok := l.takeWhile (fun c => !isWhite c)
    let rest := l.dropWhile (fun c => !isWhite c)
    match rest with
    | [] => [tok]
    | _ :: r2 => tok :: wsSplitScan fuel (r2.dropWhile isWhite)

/-- The split of the trimmed line text at whitespace, wrapped with enough
fuel. -/
def wsSplit (l : Str) : List Str := wsSplitScan (l.length + 1) l

/-- The last few typed tokens: `slice(-3).join(' ')` of the whitespace split
(completionProvider.ts, 654-656). -/
def lastFewTokens (p : Str) : Str :=
  let toks := wsSplit p
  List.intercalate [' '] (toks.drop (toks.length - 3))

/-- The post-processing of a raw completion in
`CodeLlamaCompletionProvider.fetchCompletion` (completionProvider.ts, 620-671):
empty-response guard, `cleanMarkdown`, duplicate-prefix strip against the
trimmed current-line prefix, secondary strip of the last three
whitespace-delimited tokens, and the final empty guard.  `none` is the
"no suggestion" result (`return undefined`). -/
def postProcess (linePfx raw : Str) : Option Str :=
  if trim raw = [] then none
  else
    let completion := cleanMarkdown (trim raw)
    if completion = [] then none
    else
      let trimmedPfx := trim linePfx
      let trimmedCompletion := trim completion
      let final1 :=
        if trimmedPfx ≠ [] ∧ trimmedPfx.isPrefixOf trimmedCompletion = true then
          trim (trimmedCompletion.drop trimmedPfx.length)
        else completion
      let toks := wsSplit trimmedPfx
      let lastFew := lastFewTokens trimmedPfx
      let final2 :=
        if 0 < toks.length ∧ lastFew ≠ [] ∧ lastFew.isPrefixOf (trim final1) = true then
          trim ((trim final1).drop lastFew.length)
        else final1
      if final2 = [] then none else some final2

/-- Model of `CodeLlamaCompletionProvider.truncate` (completionProvider.ts,
687-692): `text.substring(text.length - maxLength)` keeps the last
`maxLength` characters. -/
def truncate (text : Str) (maxLength : Nat) : Str :=
  if text.length ≤ maxLength then text else text.drop (text.length - maxLength)

/-- What the spec's words require of the *suffix* truncation: the content
nearest the cursor — the *front* of the text after the cursor — is preserved
and the far end is dropped. -/
def suffixKeepNearest (text : Str) (maxLength : Nat) : Str :=
  text.take maxLength

/-!
## `CodeLlamaCompletionProvider.provideInlineCompletionItems`
(completionProvider.ts, 552-590)
-/

/-- `vscode.InlineCompletionTriggerKind`. -/
inductive TriggerKind where
  | automatic
  | invoke
  deriving DecidableEq, Repr

/-- The provider's mutable fields: the pending debounce timer (deadline of the
armed `setTimeout`, if any) and the abort-controller generation — creating a
new `AbortController` (line 560) invalidates the previous one for good. -/
structure SchedulerState where
  debounceDeadline : Option Nat
  generation : Nat
  deriving DecidableEq, Repr

/-- An edit event delivered to `provideInlineCompletionItems`. -/
structure EditEvent where
  lineText : Str
  character : Nat
  trigger : TriggerKind
  deriving DecidableEq, Repr

/-- The outward action an invocation takes. -/
inductive SchedAction where
  | noRequest
  | startDebounce
  | fetchNow
  deriving DecidableEq, Repr

/-- The fixed debounce delay (completionProvider.ts, 584: `}, 2000);`). -/
def DEBOUNCE_MS : Nat := 2000

/-- `line.text.substring(0, position.character).trim()`
(completionProvider.ts, 568). -/
def textBeforeCursor (ev : EditEvent) : Str := trim (ev.lineText.take ev.character)

/-- One invocation of `provideInlineCompletionItems` at time `now`
(completionProvider.ts, 552-590): abort the previous controller and clear the
pending timer (558-565), return no request on an empty/whitespace-only line
prefix (567-573), debounce an automatic trigger (576-586), fetch immediately
on a manual trigger (589). -/
def provideStep (st : SchedulerState) (ev : EditEvent) (now : Nat) :
    SchedulerState × SchedAction :=
  let st1 : SchedulerState := ⟨Option.none, st.generation + 1⟩
  if textBeforeCursor ev = [] then (st1, SchedAction.noRequest)
  else
    match ev.trigger with
    | TriggerKind.automatic =>
        (⟨some (now + DEBOUNCE_MS), st1.generation⟩, SchedAction.startDebounce)
    | TriggerKind.invoke => (st1, SchedAction.fetchNow)

/-!
## Debounce-timer trace semantics

A run over a stream of automatic triggers (each passing the non-empty-line
guard), with real `setTimeout`/`clearTimeout` semantics: a timer armed at
time `t` fires at `t + DEBOUNCE_MS` unless a later invocation clears it first
(completionProvider.ts, 563-565 and 578-584).  Events are given by their
arrival times; the timer armed by event `i` carries index `i`, and a fired
timer issues the network call for its event.
-/

/-- A pending debounce timer: the index of the event that armed it and its
firing deadline. -/
structure PendingTimer where
  idx : Nat
  fireAt : Nat
  deriving DecidableEq, Repr

/-- Process the events from index `i` on: before each event is handled, a
pending timer whose deadline has passed fires (issuing its network call);
the handler then clears whatever timer is still pending and arms a fresh one
for its own event. -/
def runAutoFrom : Nat → List Nat → Option PendingTimer → List Nat →
    Option PendingTimer × List Nat
  | _, [], pending, fired => (pending, fired)
  | i, t :: rest, pending, fired =>
    let fired1 :=
      match pending with
      | some pt => if pt.fireAt ≤ t then fired ++ [pt.idx] else fired
      | Option.none => fired
    runAutoFrom (i + 1) rest (some ⟨i, t + DEBOUNCE_MS⟩) fired1

/-- The indices of the events whose network call is ultimately issued, for a
stream of automatic triggers at the given times: after the last event, the
surviving timer fires undisturbed. -/
def networkCallsFor (times : List Nat) : List Nat :=
  match runAutoFrom 0 times Option.none [] with
  | (some pt, fired) => fired ++ [pt.idx]
  | (Option.none, fired) => fired

/-!
## Cancellation and error delivery (axios + the two request paths)
-/

/-- A JavaScript `Error` as observed by the catch blocks: its `name` and
`message`. -/
structure JsError where
  errName : Str
  errMessage : Str
  deriving DecidableEq, Repr

/-- The error axios rejects with when the request's `AbortSignal` fires:
`CanceledError`, whose `name` is `"CanceledError"` and whose message is
`"canceled"`. -/
def canceledError : JsError := ⟨"CanceledError".toList, "canceled".toList⟩

/-- Axios delivery semantics: if the abort signal fires while the call is in
flight, the promise rejects with `canceledError` — even if the network
response arrives later, it is discarded; otherwise the transport outcome
(response or transport error) is delivered. -/
def axiosDeliver {α : Type} (abortedInFlight : Bool) (transport : Except JsError α) :
    Except JsError α :=
  if abortedInFlight = true then Except.error canceledError else transport

/-- Wire shape of `POST /complete`'s response (backendClient.ts, 334-338). -/
structure CompletionResponse where
  completion : Str
  apiModeUsed : Option Str
  modelUsed : Option Str
  deriving DecidableEq, Repr

/-- Observable outcome of one completion attempt: the suggestion (if any),
the output-channel log lines, and the user-visible error messages
(`vscode.window.showErrorMessage` calls — of which the completion path has
none). -/
structure CompletionAttempt where
  suggestion : Option Str
  logLines : List Str
  userErrors : List Str
  deriving DecidableEq, Repr

/-- The catch block's cancellation test (completionProvider.ts, 673):
`error.name === "AbortError" || error.name === "CanceledError"`. -/
def isCancellationName (n : Str) : Bool :=
  n == "AbortError".toList || n == "CanceledError".toList

/-- Model of `fetchCompletion`'s network call and error handling
(completionProvider.ts, 616-684): a successful delivery goes through the
post-processor; a cancellation is logged `"Request cancelled"` and yields no
suggestion; every other error is logged and likewise yields no suggestion —
no branch surfaces a user-visible error. -/
def fetchCompletionModel (linePfx : Str) (abortedInFlight : Bool)
    (transport : Except JsError CompletionResponse) : CompletionAttempt :=
  match axiosDeliver abortedInFlight transport with
  | Except.ok resp => ⟨postProcess linePfx resp.completion, [], []⟩
  | Except.error e =>
      if isCancellationName e.errName = true then
        ⟨Option.none, ["Request cancelled".toList], []⟩
      else
        ⟨Option.none, ["Error: ".toList ++ e.errMessage], []⟩

/-!
## `ChatPanel.handleSendMessage` (chatPanel.ts, 478-555)
-/

/-- Message roles of the conversation transcript. -/
inductive ChatRole where
  | user
  | assistant
  deriving DecidableEq, Repr

/-- One transcript entry (chatPanel.ts, 5-10; timestamps elided). -/
structure ConversationEntry where
  role : ChatRole
  content : Str
  deriving DecidableEq, Repr

/-- Observable outcome of one `handleSendMessage` call: final transcript,
busy flag, stored error state, `showErrorMessage` toasts and
`showWarningMessage` toasts. -/
structure ChatOutcome where
  messages : List ConversationEntry
  busy : Bool
  errorState : Option Str
  userErrors : List Str
  warnings : List Str
  deriving DecidableEq, Repr

/-- Model of `ChatPanel.handleSendMessage` (chatPanel.ts, 478-555).
`abortedInFlight` is an abort landing while the call is pending (axios
rejects); `abortedAfterResolve` is the `signal.aborted` value observed by the
explicit post-await check (line 527).  The catch treats only an error *named*
`"AbortError"` as an abort (line 544); everything else is surfaced with a
`"Chat failed: "` toast (line 550). -/
def handleSendMessageModel (stMessages : List ConversationEntry) (text : Str)
    (abortedInFlight abortedAfterResolve : Bool)
    (transport : Except JsError Str) : ChatOutcome :=
  if trim text = [] then
    ⟨stMessages, false, Option.none, [], ["Please enter a prompt.".toList]⟩
  else
    let messages := stMessages ++ [⟨ChatRole.user, trim text⟩]
    match axiosDeliver abortedInFlight transport with
    | Except.ok answer =>
        if abortedAfterResolve = true then ⟨messages, false, Option.none, [], []⟩
        else ⟨messages ++ [⟨ChatRole.assistant, trim answer⟩], false, Option.none, [], []⟩
    | Except.error e =>
        if e.errName = "AbortError".toList then ⟨messages, false, Option.none, [], []⟩
        else ⟨messages, false, some e.errMessage,
              ["Chat failed: ".toList ++ e.errMessage], []⟩

/-!
## Server-side router (`main.py`, documented in src/unnamed/part_000, 82-93)
and the client-side mode resolution (backendClient.ts, 369-408)
-/

/-- A configured provider: mode key, endpoint URL, model name, optional
credential (app.properties: `<mode>.api.url`, `<mode>.model.name`,
`<mode>.api.key`). -/
structure ProviderConfig where
  mode : Str
  apiUrl : Str
  modelName : Str
  credential : Option Str
  deriving DecidableEq, Repr

/-- The configuration error raised for a mode with no configuration. -/
structure ConfigurationError where
  requestedMode : Str
  deriving DecidableEq, Repr

/-- Modelled from the spec: the body of `get_api_config` in the backend
`main.py` is not in the repository snapshot (only its call site,
src/unnamed/part_000 lines 82-93, and its documentation are).  Spec §4.3:
"Look up `ProviderConfig` for `EffectiveMode`; if absent, fail with a
configuration error (not a silent fallback)." -/
def get_api_config (configs : List ProviderConfig) (mode : Str) :
    Except ConfigurationError ProviderConfig :=
  match configs.find? (fun c => c.mode == mode) with
  | some c => Except.ok c
  | Option.none => Except.error ⟨mode⟩

/-- Python truthiness of `a or dflt` for an optional string: `None` and the
empty string fall through to the default. -/
def pyOr (a : Option Str) (dflt : Str) : Str :=
  match a with
  | some s => if s = [] then dflt else s
  | Option.none => dflt

/-- JavaScript truthiness of `a || b` for an optional string. -/
def jsOr (a : Option Str) (b : Str) : Str :=
  match a with
  | some s => if s = [] then b else s
  | Option.none => b

/-- `vscode.workspace.getConfiguration("codellama").get<string>("apiMode",
"local")`: the persisted setting if present, else the supplied default. -/
def vsGetSetting (setting : Option Str) (dflt : Str) : Str := setting.getD dflt

/-- The `api_mode` the client attaches to every request
(backendClient.ts, 369-377 and 387-395): `payload.api_mode || apiMode` where
`apiMode` is the persisted `codellama.apiMode` setting (default `"local"`). -/
def clientRequestApiMode (payloadApiMode : Option Str) (setting : Option Str) : Str :=
  jsOr payloadApiMode (vsGetSetting setting "local".toList)

/-- The mode the server resolves for a request (src/unnamed/part_000, 85):
`api_mode = req.api_mode or DEFAULT_API_MODE`. -/
def serverEffectiveMode (reqApiMode : Option Str) (defaultMode : Str) : Str :=
  pyOr reqApiMode defaultMode

/-- Normalized result of the `/chat` route: answer plus the mode and model
that actually served the request (spec §4.3 step 4; src/unnamed/part_000,
132: "Responses include `api_mode_used` and `model_used`"). -/
structure ChatRouteResult where
  answer : Str
  apiModeUsed : Str
  modelUsed : Str
  deriving DecidableEq, Repr

/-- The `/chat` endpoint's mode resolution and config lookup
(src/unnamed/part_000, 83-93), with the response fields modelled from the
spec (§4.3 step 4): `mode_used` is the effective mode, `model_used` the
selected config's model name; `providerAnswer` stands for the provider call's
text. -/
def chatEndpoint (configs : List ProviderConfig) (defaultMode : Str)
    (reqApiMode : Option Str) (providerAnswer : Str) :
    Except ConfigurationError ChatRouteResult :=
  let api_mode := serverEffectiveMode reqApiMode defaultMode
  match get_api_config configs api_mode with
  | Except.error e => Except.error e
  | Except.ok cfg => Except.ok ⟨providerAnswer, api_mode, cfg.modelName⟩

/-!
## Supporting lemmas
-/

theorem trim_subset (l : Str) : trim l ⊆ l := by
  intro c hc
  unfold trim at hc
  rw [List.mem_reverse] at hc
  have h1 := (List.dropWhile_sublist (l := (l.dropWhile isWhite).reverse) isWhite).subset hc
  rw [List.mem_reverse] at h1
  exact (List.dropWhile_sublist (l := l) isWhite).subset h1

theorem fenceOpenScan_of_no_btick (n : Nat) :
    ∀ (b : Bool) (l : Str), btick ∉ l → fenceOpenScan n b l = l := by
  induction n with
  | zero => intro b l _; rfl
  | succ n ih =>
    intro b l h
    cases l with
    | nil => rfl
    | cons c t =>
      have hcond : ¬(b = true ∧ (c :: t).take 3 = fence) := by
        rintro ⟨-, htake⟩
        apply h
        apply List.take_subset 3 (c :: t)
        rw [htake]
        simp [fence]
      have ht : btick ∉ t := fun hm => h (List.mem_cons_of_mem c hm)
      show fenceOpenScan (n + 1) b (c :: t) = c :: t
      rw [fenceOpenScan, if_neg hcond, ih (c == '\n') t ht]

theorem fenceCloseScan_of_no_btick (n : Nat) :
    ∀ (l : Str), btick ∉ l → fenceCloseScan n l = l := by
  induction n with
  | zero => intro l _; rfl
  | succ n ih =>
    intro l h
    cases l with
    | nil => rfl
    | cons c t =>
      have hc1 : ¬(c = '\n' ∧ t.take 3 = fence ∧ atLineEnd (t.drop 3) = true) := by
        rintro ⟨-, htake, -⟩
        apply h
        apply List.mem_cons_of_mem c
        apply List.take_subset 3 t
        rw [htake]; simp [fence]
      have hc2 : ¬(c = btick ∧ t.take 2 = [btick, btick] ∧ atLineEnd (t.drop 2) = true) := by
        rintro ⟨hcb, -, -⟩
        exact h (hcb ▸ List.mem_cons_self c t)
      have ht : btick ∉ t := fun hm => h (List.mem_cons_of_mem c hm)
      show fenceCloseScan (n + 1) (c :: t) = c :: t
      rw [fenceCloseScan, if_neg hc1, if_neg hc2, ih t ht]

theorem removeBackticks_of_no_btick {l : Str} (h : btick ∉ l) : removeBackticks l = l := by
  unfold removeBackticks
  rw [List.filter_eq_self]
  intro a ha
  have hne : a ≠ btick := fun he => h (he ▸ ha)
  simpa using hne

theorem no_btick_of_subset {l m : Str} (hsub : m ⊆ l) (h : btick ∉ l) : btick ∉ m :=
  fun hm => h (hsub hm)

theorem cleanMarkdown_of_clean {s : Str} (hbt : btick ∉ s) (htr : trim s = s) :
    cleanMarkdown s = s := by
  simp only [cleanMarkdown]
  rw [fenceOpenScan_of_no_btick s.length true s hbt,
      fenceCloseScan_of_no_btick s.length s hbt,
      removeBackticks_of_no_btick hbt, htr]

theorem no_btick_trim {l : Str} (h : btick ∉ l) : btick ∉ trim l :=
  no_btick_of_subset (trim_subset l) h

theorem no_btick_drop {l : Str} {n : Nat} (h : btick ∉ l) : btick ∉ l.drop n :=
  no_btick_of_subset (List.drop_subset n l) h

theorem cleanMarkdown_no_btick (t : Str) : btick ∉ cleanMarkdown t := by
  intro hmem
  simp only [cleanMarkdown] at hmem
  have h1 := trim_subset _ hmem
  rw [removeBackticks, List.mem_filter] at h1
  simpa using h1.2

theorem postProcess_no_btick {linePfx raw s : Str} (h : postProcess linePfx raw = some s) :
    btick ∉ s := by
  have hclean : btick ∉ cleanMarkdown (trim raw) := cleanMarkdown_no_btick (trim raw)
  simp only [postProcess] at h
  -- the surviving value is derived from `cleanMarkdown (trim raw)` by `trim`
  -- and `drop` steps in each branch of the nested conditionals
  repeat' split at h
  all_goals try exact Option.noConfusion h
  all_goals rw [Option.some.injEq] at h
  all_goals subst h
  all_goals first
    | exact no_btick_trim (no_btick_drop (no_btick_trim
        (no_btick_trim (no_btick_drop (no_btick_trim hclean)))))
    | exact no_btick_trim (no_btick_drop (no_btick_trim hclean))
    | exact hclean

/-- The debounce runner leaves the fired list untouched while events keep
arriving inside the debounce window: each event clears the pending timer
before its deadline and re-arms; only the last event's timer survives. -/
theorem runAutoFrom_fast :
    ∀ (times : List Nat) (i : Nat) (pending : Option PendingTimer) (fired : List Nat),
      times ≠ [] →
      List.Chain' (fun a b => b < a + DEBOUNCE_MS) times →
      (∀ (pt : PendingTimer) (t0 : Nat),
          pending = some pt → times.head? = some t0 → t0 < pt.fireAt) →
      ∃ pt : PendingTimer,
        runAutoFrom i times pending fired = (some pt, fired) ∧
        pt.idx = i + times.length - 1 := by
  intro times
  induction times with
  | nil => intro i pending fired hne _ _; exact absurd rfl hne
  | cons t rest ih =>
    intro i pending fired _ hchain hpend
    have hstep : runAutoFrom i (t :: rest) pending fired
        = runAutoFrom (i + 1) rest (some ⟨i, t + DEBOUNCE_MS⟩) fired := by
      cases pending with
      | none => rfl
      | some pt =>
          have hlt : t < pt.fireAt := hpend pt t rfl rfl
          simp only [runAutoFrom]
          rw [if_neg (Nat.not_le.mpr hlt)]
    rw [hstep]
    cases rest with
    | nil =>
        refine ⟨⟨i, t + DEBOUNCE_MS⟩, rfl, ?_⟩
        simp
    | cons t1 rest1 =>
        have hpend1 : ∀ (pt : PendingTimer) (t0 : Nat),
            (some ⟨i, t + DEBOUNCE_MS⟩ : Option PendingTimer) = some pt →
            (t1 :: rest1).head? = some t0 → t0 < pt.fireAt := by
          intro pt t0 hpt ht0
          rw [Option.some.injEq] at hpt
          simp only [List.head?_cons, Option.some.injEq] at ht0
          subst hpt
          subst ht0
          exact (List.chain'_cons.mp hchain).1
        obtain ⟨pt, heq, hidx⟩ :=
          ih (i + 1) (some ⟨i, t + DEBOUNCE_MS⟩) fired (by simp)
            (List.chain'_cons.mp hchain).2 hpend1
        refine ⟨pt, heq, ?_⟩
        rw [hidx]
        simp only [List.length_cons]
        omega

/-!
## The claims
-/

/-- C1: a request carrying an `api_mode` with no matching provider
configuration fails with a `ConfigurationError` naming that mode — it is
never silently routed to the default mode's provider or any other provider. -/
theorem unconfigured_mode_fails (configs : List ProviderConfig) (dflt m ans : Str)
    (hm : m ≠ [])
    (hnone : configs.find? (fun c => c.mode == m) = Option.none) :
    chatEndpoint configs dflt (some m) ans = Except.error ⟨m⟩ := by
  simp only [chatEndpoint, serverEffectiveMode, pyOr, get_api_config, if_neg hm, hnone]

theorem unconfigured_mode_fails_witness :
    chatEndpoint
        [⟨"local".toList, "http://localhost:11434/api/generate".toList,
          "deepseek-coder:6.7b".toList, Option.none⟩]
        ("local".toList) (some ("gemini".toList)) ("hi".toList)
      = Except.error ⟨"gemini".toList⟩ :=
  unconfigured_mode_fails _ _ _ _ (by decide) (by decide)

/-- Evaluation of the chat handler when the abort signal fired in flight:
axios rejects with `canceledError`, whose name is not `"AbortError"`, so the
catch takes the generic-error branch. -/
theorem handleSend_abortedInFlight (msgs : List ConversationEntry) (text : Str)
    (ab2 : Bool) (transport : Except JsError Str) (htext : ¬trim text = []) :
    handleSendMessageModel msgs text true ab2 transport
      = ⟨msgs ++ [⟨ChatRole.user, trim text⟩], false, some ("canceled".toList),
         ["Chat failed: canceled".toList], []⟩ := by
  unfold handleSendMessageModel
  rw [if_neg htext]
  rfl

/-- Evaluation of the chat handler when the call resolved but the post-await
check saw the signal aborted: the state is updated without a new message. -/
theorem handleSend_okAborted (msgs : List ConversationEntry) (text : Str)
    (ans : Str) (htext : ¬trim text = []) :
    handleSendMessageModel msgs text false true (Except.ok ans)
      = ⟨msgs ++ [⟨ChatRole.user, trim text⟩], false, Option.none, [], []⟩ := by
  unfold handleSendMessageModel
  rw [if_neg htext]
  rfl

/-- Evaluation of the chat handler on a transport error delivered unaborted:
an error named `"AbortError"` is silent; anything else is surfaced. -/
theorem handleSend_error (msgs : List ConversationEntry) (text : Str)
    (e : JsError) (ab2 : Bool) (htext : ¬trim text = []) :
    handleSendMessageModel msgs text false ab2 (Except.error e)
      = if e.errName = "AbortError".toList
        then ⟨msgs ++ [⟨ChatRole.user, trim text⟩], false, Option.none, [], []⟩
        else ⟨msgs ++ [⟨ChatRole.user, trim text⟩], false, some e.errMessage,
              ["Chat failed: ".toList ++ e.errMessage], []⟩ := by
  unfold handleSendMessageModel
  rw [if_neg htext]
  rfl

/-- C2: a superseded in-flight request (its cancellation token aborted) never
has its result applied — the completion path yields no suggestion, and the
chat path appends no assistant message, even when the network response
arrives after the abort. -/
theorem superseded_result_discarded :
    (∀ (linePfx : Str) (transport : Except JsError CompletionResponse),
        (fetchCompletionModel linePfx true transport).suggestion = Option.none) ∧
    (∀ (msgs : List ConversationEntry) (text : Str) (ab1 ab2 : Bool)
        (transport : Except JsError Str),
        ab1 = true ∨ ab2 = true →
        ((handleSendMessageModel msgs text ab1 ab2 transport).messages = msgs ∨
         (handleSendMessageModel msgs text ab1 ab2 transport).messages
           = msgs ++ [⟨ChatRole.user, trim text⟩])) := by
  constructor
  · intro linePfx transport
    have hdeliver : axiosDeliver true transport = Except.error canceledError := rfl
    simp only [fetchCompletionModel, hdeliver]
    rw [if_pos (by decide)]
  · intro msgs text ab1 ab2 transport hab
    by_cases htext : trim text = []
    · left
      simp only [handleSendMessageModel, if_pos htext]
    · cases ab1 with
      | true =>
          right
          rw [handleSend_abortedInFlight msgs text ab2 transport htext]
      | false =>
          have hab2 : ab2 = true := by
            rcases hab with h | h
            · exact absurd h (by simp)
            · exact h
          subst hab2
          right
          cases transport with
          | ok ans => rw [handleSend_okAborted msgs text ans htext]
          | error e =>
              rw [handleSend_error msgs text e true htext]
              split <;> rfl

theorem superseded_result_discarded_witness :
    (fetchCompletionModel ("x".toList) true
        (Except.ok ⟨"hi".toList, Option.none, Option.none⟩)).suggestion = Option.none ∧
    ((handleSendMessageModel [] ("hi".toList) true false
        (Except.ok ("yo".toList))).messages = [] ∨
     (handleSendMessageModel [] ("hi".toList) true false
        (Except.ok ("yo".toList))).messages
       = [] ++ [⟨ChatRole.user, trim ("hi".toList)⟩]) :=
  ⟨superseded_result_discarded.1 _ _,
   superseded_result_discarded.2 [] _ true false _ (Or.inl rfl)⟩

/-- C3: for a stream of automatic triggers each arriving within the 2000 ms
debounce window of its predecessor, exactly one network call is ultimately
issued — the one for the last event; every earlier pending timer is cleared
before it can fire. -/
theorem debounce_single_call (times : List Nat)
    (hne : times ≠ [])
    (hfast : List.Chain' (fun a b => a ≤ b ∧ b < a + DEBOUNCE_MS) times) :
    networkCallsFor times = [times.length - 1] := by
  have hchain : List.Chain' (fun a b => b < a + DEBOUNCE_MS) times :=
    List.Chain'.imp (fun a b h => h.2) hfast
  obtain ⟨pt, heq, hidx⟩ :=
    runAutoFrom_fast times 0 Option.none [] hne hchain
      (fun pt t0 hpt _ => Option.noConfusion hpt)
  simp only [networkCallsFor]
  rw [heq]
  show [] ++ [pt.idx] = [times.length - 1]
  rw [hidx]
  simp

theorem debounce_single_call_witness : networkCallsFor [0, 100, 1900] = [2] :=
  debounce_single_call [0, 100, 1900] (by decide)
    (by norm_num [List.chain'_cons, DEBOUNCE_MS])

/-- C4: the effective mode is resolved fresh per request by the precedence
chain request-level override → persisted setting → process default (first
present wins); with both modes configured, a request overriding `"cloud"` is
served by the cloud config's model and a later request overriding `"local"`
against the very same configuration set by the local config's model. -/
theorem per_request_mode_resolution (configs : List ProviderConfig) (dflt : Str)
    (setting : Option Str) (cloudCfg localCfg : ProviderConfig) (ans1 ans2 : Str)
    (hcloud : configs.find? (fun c => c.mode == ("cloud".toList : Str)) = some cloudCfg)
    (hlocal : configs.find? (fun c => c.mode == ("local".toList : Str)) = some localCfg) :
    chatEndpoint configs dflt
        (some (clientRequestApiMode (some ("cloud".toList)) setting)) ans1
      = Except.ok ⟨ans1, "cloud".toList, cloudCfg.modelName⟩ ∧
    chatEndpoint configs dflt
        (some (clientRequestApiMode (some ("local".toList)) setting)) ans2
      = Except.ok ⟨ans2, "local".toList, localCfg.modelName⟩ ∧
    (∀ (ov : Str) (stg : Option Str) (d : Str), ov ≠ [] →
        serverEffectiveMode (some (clientRequestApiMode (some ov) stg)) d = ov) ∧
    (∀ (stv d : Str), stv ≠ [] →
        serverEffectiveMode (some (clientRequestApiMode Option.none (some stv))) d = stv) ∧
    (∀ d : Str, serverEffectiveMode Option.none d = d) := by
  have hover : ∀ (ov : Str) (stg : Option Str), ov ≠ [] →
      clientRequestApiMode (some ov) stg = ov := by
    intro ov stg hov
    simp only [clientRequestApiMode, jsOr, if_neg hov]
  have hserver : ∀ (ov d : Str), ov ≠ [] →
      serverEffectiveMode (some ov) d = ov := by
    intro ov d hov
    simp only [serverEffectiveMode, pyOr, if_neg hov]
  refine ⟨?_, ?_, ?_, ?_, ?_⟩
  · rw [hover _ setting (by decide)]
    simp only [chatEndpoint, hserver ("cloud".toList) dflt (by decide), get_api_config, hcloud]
  · rw [hover _ setting (by decide)]
    simp only [chatEndpoint, hserver ("local".toList) dflt (by decide), get_api_config, hlocal]
  · intro ov stg d hov
    rw [hover ov stg hov]
    exact hserver ov d hov
  · intro stv d hstv
    have hclient : clientRequestApiMode Option.none (some stv) = stv := rfl
    rw [hclient]
    exact hserver stv d hstv
  · intro d; rfl

/-- Example provider configurations used to witness the routing claims. -/
def localCfgEx : ProviderConfig :=
  ⟨"local".toList, "http://localhost:11434/api/generate".toList,
   "deepseek-coder:6.7b".toList, Option.none⟩

/-- Example cloud provider configuration. -/
def cloudCfgEx : ProviderConfig :=
  ⟨"cloud".toList, "https://api.openai.com/v1/chat/completions".toList,
   "gpt-3.5-turbo".toList, some ("sk-key".toList)⟩

theorem per_request_mode_resolution_witness :
    chatEndpoint [localCfgEx, cloudCfgEx] ("local".toList)
        (some (clientRequestApiMode (some ("cloud".toList)) Option.none)) ("a1".toList)
      = Except.ok ⟨"a1".toList, "cloud".toList, cloudCfgEx.modelName⟩ ∧
    chatEndpoint [localCfgEx, cloudCfgEx] ("local".toList)
        (some (clientRequestApiMode (some ("local".toList)) Option.none)) ("a2".toList)
      = Except.ok ⟨"a2".toList, "local".toList, localCfgEx.modelName⟩ :=
  ⟨(per_request_mode_resolution [localCfgEx, cloudCfgEx] ("local".toList) Option.none
      cloudCfgEx localCfgEx ("a1".toList) ("a2".toList) (by decide) (by decide)).1,
   (per_request_mode_resolution [localCfgEx, cloudCfgEx] ("local".toList) Option.none
      cloudCfgEx localCfgEx ("a1".toList) ("a2".toList) (by decide) (by decide)).2.1⟩

/-- C5 counterexample: the captured suffix window is truncated with the same
tail-keeping `truncate` as the prefix, so on a 501-character suffix the
character nearest the cursor (`'a'`, the head) is dropped and only the
farthest 500 characters survive — the spec-side nearest-preserving truncation
would keep the head. -/
theorem truncate_suffix_cex :
    truncate ('a' :: List.replicate 500 'b') 500 = List.replicate 500 'b' ∧
    (truncate ('a' :: List.replicate 500 'b') 500).all (fun c => c != 'a') = true ∧
    (suffixKeepNearest ('a' :: List.replicate 500 'b') 500).head? = some 'a' := by
  have hlen : ((('a' :: List.replicate 500 'b') : Str)).length = 501 := by
    rw [List.length_cons, List.length_replicate]
  have hc : ¬((('a' :: List.replicate 500 'b') : Str)).length ≤ 500 := by
    rw [hlen]; omega
  have ht : truncate ('a' :: List.replicate 500 'b') 500 = List.replicate 500 'b' := by
    rw [truncate, if_neg hc, hlen, show 501 - 500 = 1 from rfl]
    rfl
  refine ⟨ht, ?_, ?_⟩
  · rw [ht, List.all_eq_true]
    intro x hx
    rw [List.mem_replicate] at hx
    rw [hx.2]
    decide
  · rfl

/-- C5 (amended): `truncate` always keeps the last `min (length, maxLength)`
characters.  For the prefix this preserves the content nearest the cursor,
as the claim states; for the suffix it keeps the *farthest* content and
drops the nearest when the window exceeds the cap. -/
theorem truncate_keeps_tail (text : Str) (maxLength : Nat) :
    truncate text maxLength = text.drop (text.length - maxLength) := by
  rw [truncate]
  by_cases h : text.length ≤ maxLength
  · rw [if_pos h, Nat.sub_eq_zero_of_le h, List.drop_zero]
  · rw [if_neg h]

/-- C6: the duplicate-prefix stripping with typed line prefix `"def foo"` on
the raw suggestion `"def foo(): return 1"` yields exactly `"(): return 1"`. -/
theorem strip_duplicate_example :
    postProcess ("def foo".toList) ("def foo(): return 1".toList)
      = some ("(): return 1".toList) := by
  decide

/-- C7: the cleaning pipeline is idempotent on already-clean input: a
non-empty suggestion with no backticks (hence no fences), no leading or
trailing whitespace, and no overlap with the typed line prefix passes
through `postProcess` unchanged. -/
theorem postProcess_clean_id (p s : Str)
    (h0 : s ≠ [])
    (hbt : btick ∉ s)
    (htr : trim s = s)
    (h1 : trim p = [] ∨ (trim p).isPrefixOf s = false)
    (h2 : lastFewTokens (trim p) = [] ∨ (lastFewTokens (trim p)).isPrefixOf s = false) :
    postProcess p s = some s := by
  have hclean : cleanMarkdown s = s := cleanMarkdown_of_clean hbt htr
  have hns1 : ¬(trim p ≠ [] ∧ (trim p).isPrefixOf s = true) := by
    rcases h1 with h1 | h1
    · rintro ⟨hne, -⟩; exact hne h1
    · rintro ⟨-, hpre⟩; rw [h1] at hpre; exact Bool.false_ne_true hpre
  have hns2 : ¬(0 < (wsSplit (trim p)).length ∧ lastFewTokens (trim p) ≠ [] ∧
      (lastFewTokens (trim p)).isPrefixOf s = true) := by
    rcases h2 with h2 | h2
    · rintro ⟨-, hne, -⟩; exact hne h2
    · rintro ⟨-, -, hpre⟩; rw [h2] at hpre; exact Bool.false_ne_true hpre
  have e0 : (s = []) = False := eq_false h0
  have e1 : (trim p ≠ [] ∧ (trim p).isPrefixOf s = true) = False := eq_false hns1
  have e2 : (0 < (wsSplit (trim p)).length ∧ lastFewTokens (trim p) ≠ [] ∧
      (lastFewTokens (trim p)).isPrefixOf s = true) = False := eq_false hns2
  simp only [postProcess, htr, hclean, e0, e1, e2, if_false]

theorem postProcess_clean_id_witness :
    postProcess ("x".toList) ("abc".toList) = some ("abc".toList) :=
  postProcess_clean_id ("x".toList) ("abc".toList)
    (by decide) (by decide) (by decide) (by decide) (by decide)

/-- C8: an edit position whose current-line text before the cursor is empty
or whitespace-only yields no request at all: the handler returns immediately
with no debounce timer armed and no fetch issued. -/
theorem whitespace_line_no_request (st : SchedulerState) (ev : EditEvent) (now : Nat)
    (h : textBeforeCursor ev = []) :
    provideStep st ev now = (⟨Option.none, st.generation + 1⟩, SchedAction.noRequest) := by
  simp only [provideStep, if_pos h]

theorem whitespace_line_no_request_witness :
    provideStep ⟨some 5, 7⟩ ⟨"   ".toList, 3, TriggerKind.automatic⟩ 100
      = (⟨Option.none, 8⟩, SchedAction.noRequest) :=
  whitespace_line_no_request ⟨some 5, 7⟩ ⟨"   ".toList, 3, TriggerKind.automatic⟩ 100
    (by decide)

/-- C9: at the failing input — a chat request whose cancellation token is
aborted while the call is in flight, so axios rejects with `CanceledError` —
the chat handler surfaces a visible "Chat failed: canceled" toast instead of
staying silent: its catch recognizes only errors *named* `"AbortError"` as
aborts, although the repository's own completion path shows cancellations
arrive as `"CanceledError"`. -/
theorem chat_cancellation_surfaces_error :
    (handleSendMessageModel [] ("hi".toList) true false
        (Except.ok ("yo".toList))).userErrors
      = ["Chat failed: canceled".toList] := by
  decide

/-- C10: every suggestion surfaced by the completion post-processor contains
no backtick at all, and `cleanMarkdown` deletes every backtick occurring
anywhere in the raw model output — including backticks that are legitimate
code content such as template literals, not only fence markers. -/
theorem no_btick_ever_surfaced (linePfx raw s t : Str)
    (h : postProcess linePfx raw = some s) :
    s.all (fun c => c != btick) = true ∧
    (cleanMarkdown t).all (fun c => c != btick) = true := by
  constructor
  · rw [List.all_eq_true]
    intro x hx
    have hs := postProcess_no_btick h
    have hne : x ≠ btick := fun he => hs (he ▸ hx)
    simpa using hne
  · rw [List.all_eq_true]
    intro x hx
    have hs := cleanMarkdown_no_btick t
    have hne : x ≠ btick := fun he => hs (he ▸ hx)
    simpa using hne

theorem no_btick_ever_surfaced_witness :
    ((("const s = ".toList ++ [btick] ++ "hi".toList ++ [btick] ++ ";".toList) : Str) ≠ []) ∧
    postProcess ("z".toList)
        ("const s = ".toList ++ [btick] ++ "hi".toList ++ [btick] ++ ";".toList)
      = some ("const s = hi;".toList) ∧
    ("const s = hi;".toList : Str).all (fun c => c != btick) = true ∧
    (cleanMarkdown ([btick] ++ "x".toList ++ [btick])).all (fun c => c != btick) = true :=
  have happ := no_btick_ever_surfaced ("z".toList)
      ("const s = ".toList ++ [btick] ++ "hi".toList ++ [btick] ++ ";".toList)
      ("const s = hi;".toList) ([btick] ++ "x".toList ++ [btick]) (by decide)
  ⟨by decide, by decide, happ.1, happ.2⟩

end AiHackathon
